import Mathlib

/-!
Verification development for the VectorSearchEngine repository.

The embedding store (`AsyncEmbeddingDatabase` in `gibson/database.py`) is
embedded shallowly below: the sha256-hex identifier, the duplicate and
dimension guards of `insert`, the append-then-save sequencing, and the
`setup`/`_read_json`/`_save` persistence round-trip.  The similarity engine
is not present in the repository's sources; it is modelled from the spec
where needed, and every such definition says so in its doc comment.
-/

namespace VectorSearchEngine

/-! ### SHA-256, as used by `hashlib.sha256(text.encode()).hexdigest()` -/

/-- 2^32, the modulus for 32-bit words. -/
def w32 : Nat := 4294967296

/-- Right rotation of a 32-bit word. -/
def rotr (x n : Nat) : Nat := ((x >>> n) ||| (x <<< (32 - n))) % w32

/-- The SHA-256 Σ₀ function. -/
def bigSigma0 (x : Nat) : Nat := (rotr x 2) ^^^ (rotr x 13) ^^^ (rotr x 22)

/-- The SHA-256 Σ₁ function. -/
def bigSigma1 (x : Nat) : Nat := (rotr x 6) ^^^ (rotr x 11) ^^^ (rotr x 25)

/-- The SHA-256 σ₀ function. -/
def smallSigma0 (x : Nat) : Nat := (rotr x 7) ^^^ (rotr x 18) ^^^ (x >>> 3)

/-- The SHA-256 σ₁ function. -/
def smallSigma1 (x : Nat) : Nat := (rotr x 17) ^^^ (rotr x 19) ^^^ (x >>> 10)

/-- The SHA-256 `Ch` function (32-bit complement written as xor with 2^32-1). -/
def ch (x y z : Nat) : Nat := (x &&& y) ^^^ ((x ^^^ 4294967295) &&& z)

/-- The SHA-256 `Maj` function. -/
def maj (x y z : Nat) : Nat := (x &&& y) ^^^ (x &&& z) ^^^ (y &&& z)

/-- The 64 SHA-256 round constants, written in decimal. -/
def K : List Nat :=
  [1116352408, 1899447441, 3049323471, 3921009573, 961987163, 1508970993,
   2453635748, 2870763221, 3624381080, 310598401, 607225278, 1426881987,
   1925078388, 2162078206, 2614888103, 3248222580, 3835390401, 4022224774,
   264347078, 604807628, 770255983, 1249150122, 1555081692, 1996064986,
   2554220882, 2821834349, 2952996808, 3210313671, 3336571891, 3584528711,
   113926993, 338241895, 666307205, 773529912, 1294757372, 1396182291,
   1695183700, 1986661051, 2177026350, 2456956037, 2730485921, 2820302411,
   3259730800, 3345764771, 3516065817, 3600352804, 4094571909, 275423344,
   430227734, 506948616, 659060556, 883997877, 958139571, 1322822218,
   1537002063, 1747873779, 1955562222, 2024104815, 2227730452, 2361852424,
   2428436474, 2756734187, 3204031479, 3329325298]

/-- The SHA-256 initial hash value, written in decimal. -/
def H0 : List Nat :=
  [1779033703, 3144134277, 1013904242, 2773480762,
   1359893119, 2600822924, 528734635, 1541459225]

/-- UTF-8 encoding of one character, as `str.encode()` produces it. -/
def utf8Char (c : Char) : List Nat :=
  let n := c.toNat
  if n < 0x80 then [n]
  else if n < 0x800 then [0xC0 ||| (n >>> 6), 0x80 ||| (n &&& 0x3F)]
  else if n < 0x10000 then
    [0xE0 ||| (n >>> 12), 0x80 ||| ((n >>> 6) &&& 0x3F), 0x80 ||| (n &&& 0x3F)]
  else
    [0xF0 ||| (n >>> 18), 0x80 ||| ((n >>> 12) &&& 0x3F), 0x80 ||| ((n >>> 6) &&& 0x3F),
     0x80 ||| (n &&& 0x3F)]

/-- UTF-8 byte sequence of a string. -/
def utf8Bytes (s : String) : List Nat := s.data.flatMap utf8Char

/-- Big-endian 8-byte rendering of the 64-bit message bit length. -/
def lenBytes (n : Nat) : List Nat :=
  [(n >>> 56) % 256, (n >>> 48) % 256, (n >>> 40) % 256, (n >>> 32) % 256,
   (n >>> 24) % 256, (n >>> 16) % 256, (n >>> 8) % 256, n % 256]

/-- SHA-256 padding: append `0x80`, zero bytes to 56 mod 64, then the bit length. -/
def padMessage (msg : List Nat) : List Nat :=
  msg ++ [0x80] ++ List.replicate ((119 - msg.length % 64) % 64) 0 ++ lenBytes (8 * msg.length)

/-- Big-endian packing of bytes into 32-bit words. -/
def toWords : List Nat → List Nat
  | a :: b :: c :: d :: rest => (((a * 256 + b) * 256 + c) * 256 + d) :: toWords rest
  | _ => []

/-- Split a word list into 16-word blocks (the padded message is always a
whole number of blocks). -/
def chunk16 : List Nat → List (List Nat)
  | w0 :: w1 :: w2 :: w3 :: w4 :: w5 :: w6 :: w7 ::
    w8 :: w9 :: w10 :: w11 :: w12 :: w13 :: w14 :: w15 :: rest =>
      [w0, w1, w2, w3, w4, w5, w6, w7, w8, w9, w10, w11, w12, w13, w14, w15] :: chunk16 rest
  | _ => []

/-- Extend the 16 block words to the 64-word message schedule. -/
def schedule (ws : List Nat) : List Nat :=
  (List.range 48).foldl
    (fun w _ =>
      let t := w.length
      w ++ [(smallSigma1 (w.getD (t - 2) 0) + w.getD (t - 7) 0 +
             smallSigma0 (w.getD (t - 15) 0) + w.getD (t - 16) 0) % w32])
    ws

/-- One SHA-256 compression round; `kw` is the round constant paired with the
schedule word. -/
def round (st : List Nat) (kw : Nat × Nat) : List Nat :=
  let a := st.getD 0 0
  let b := st.getD 1 0
  let c := st.getD 2 0
  let d := st.getD 3 0
  let e := st.getD 4 0
  let f := st.getD 5 0
  let g := st.getD 6 0
  let h := st.getD 7 0
  let t1 := (h + bigSigma1 e + ch e f g + kw.1 + kw.2) % w32
  let t2 := (bigSigma0 a + maj a b c) % w32
  [(t1 + t2) % w32, a, b, c, (d + t1) % w32, e, f, g]

/-- Compress one 16-word block into the running hash. -/
def compressBlock (h : List Nat) (block : List Nat) : List Nat :=
  let hs := ((K.zip (schedule block)).foldl round h)
  (h.zip hs).map fun p => (p.1 + p.2) % w32

/-- The eight 32-bit words of the SHA-256 digest of a byte message. -/
def sha256Words (msg : List Nat) : List Nat :=
  (chunk16 (toWords (padMessage msg))).foldl compressBlock H0

/-- Lowercase hex digit for a value below 16. -/
def hexDigit (n : Nat) : Char := if n < 10 then Char.ofNat (48 + n) else Char.ofNat (87 + n)

/-- Fixed-width 8-hex-digit rendering of a 32-bit word. -/
def toHex8 (x : Nat) : List Char :=
  [hexDigit ((x >>> 28) % 16), hexDigit ((x >>> 24) % 16), hexDigit ((x >>> 20) % 16),
   hexDigit ((x >>> 16) % 16), hexDigit ((x >>> 12) % 16), hexDigit ((x >>> 8) % 16),
   hexDigit ((x >>> 4) % 16), hexDigit (x % 16)]

/-- `hashlib.sha256(text.encode()).hexdigest()`: the lowercase hex SHA-256
digest of the UTF-8 bytes of `s`. -/
def sha256hex (s : String) : String := String.mk ((sha256Words (utf8Bytes s)).flatMap toHex8)

/-! ### The embedding store, from `AsyncEmbeddingDatabase` in `gibson/database.py`

`self.data` is a pandas DataFrame with columns `ID`, `Text`, `Embeddings`;
rows are kept in insertion order.  We embed a row as an `Entry` and the frame
as a `List Entry`.  Python floats in the embedding list are modelled as
rationals.  The backing JSON file holds the three aligned columns; we embed it
as a `JsonFile` of the three column lists. -/

/-- One row of `self.data`: the `ID`, `Text` and `Embeddings` columns. -/
structure Entry where
  id : String
  text : String
  embeddings : List ℚ
deriving DecidableEq

/-- The rows of the DataFrame, in insertion order. -/
abbrev Corpus := List Entry

/-- The on-disk JSON: the table of `ID`/`Text`/`Embeddings` columns written by
`self.data.to_json(self.cache_path, index=False)`. -/
structure JsonFile where
  ids : List String
  texts : List String
  embeds : List (List ℚ)
deriving DecidableEq

/-- The column table `_save` intends to serialize (three aligned columns).
This is only the payload: whether the `to_json` call accepts its arguments at
all is modelled separately by `toJsonRaises`/`save` below, and rationals stand
in for the floats the real `to_json` would additionally round to
`double_precision=10` digits. -/
def writeJson (db : Corpus) : JsonFile :=
  ⟨db.map Entry.id, db.map Entry.text, db.map Entry.embeddings⟩

/-- `_read_json`: rebuild the row list from the three aligned columns. -/
def readJson (f : JsonFile) : Corpus :=
  (f.ids.zip (f.texts.zip f.embeds)).map fun p => ⟨p.1, p.2.1, p.2.2⟩

/-- The state of an `AsyncEmbeddingDatabase`: the in-memory DataFrame
`self.data` and the contents of the cache file (`none` when the file is
missing). -/
structure DBState where
  mem : Corpus
  disk : Option JsonFile
deriving DecidableEq

/-- `setup()` under the idealizing assumption that the final `_save` call
succeeds and writes the column table: load the cache file if it exists,
otherwise start from the empty DataFrame with columns
`ID`/`Text`/`Embeddings`, then store the collection back.  This idealized
state feeds the reachability invariant; the faithful model of the `_save`
call itself, including the pandas argument validation it actually fails, is
`setupP` below. -/
def setup (file : Option JsonFile) : DBState :=
  match file with
  | some f => ⟨readJson f, some (writeJson (readJson f))⟩
  | none => ⟨[], some (writeJson [])⟩

/-- The `orient` values `DataFrame.to_json` accepts.  The source passes no
`orient`, and for a DataFrame the default is `columns`. -/
inductive Orient where
  | split
  | records
  | index
  | columns
  | values
  | table
deriving DecidableEq

/-- Modelled from the pinned pandas (`pandas = "^2.2.0"` in the project
file): `NDFrame.to_json` validates its `index` argument before writing
anything — `index=True` raises `ValueError` for orients `records`/`values`,
and `index=False` raises `ValueError` for orients `index`/`columns`. -/
def toJsonRaises (orient : Orient) (index : Bool) : Bool :=
  match orient, index with
  | .records, true => true
  | .values, true => true
  | .index, false => true
  | .columns, false => true
  | _, _ => false

/-- Result of a `_save` call: the written column table, or a raised
`ValueError`. -/
inductive SaveResult where
  | ok (f : JsonFile)
  | valueError
deriving DecidableEq

/-- `_save` exactly as the source calls it:
`self.data.to_json(self.cache_path, index=False)` with the DataFrame default
orient `columns`.  The pandas validation rejects `index=False` for that
orient, so the call raises `ValueError` before writing; with an accepted
argument combination it would write the column table. -/
def save (db : Corpus) : SaveResult :=
  if toJsonRaises .columns false then .valueError else .ok (writeJson db)

/-- Result of a `setup()` call: a ready database state, or a `ValueError`
propagated out of the unguarded `await self._save()` (the collection had
already been assigned to `self.data` when the save raised). -/
inductive SetupResult where
  | ok (st : DBState)
  | raisedValueError (mem : Corpus)
deriving DecidableEq

/-- `setup()` with the `_save` call modelled faithfully: branch on whether
the cache file exists, assign `self.data`, then `await self._save()`; a
`ValueError` from `_save` propagates out of `setup`. -/
def setupP (file : Option JsonFile) : SetupResult :=
  let mem := match file with
    | some f => readJson f
    | none => []
  match save mem with
  | .ok f => .ok ⟨mem, some f⟩
  | .valueError => .raisedValueError mem

/-- `self.data["ID"].isin([id_value]).any()`: does some row carry this id? -/
def hasId (db : Corpus) (idValue : String) : Bool :=
  db.any fun e => e.id == idValue

/-- The exceptions `insert` can raise: the two `ValueError`s of the source and
a failure of the `_save` write (modelled by the `saveOk` flag below). -/
inductive InsertError where
  | duplicateEntry (id : String)
  | invalidDimension
  | persistenceFailure
deriving DecidableEq

/-- Result of an `insert` call: either a normal return or a raised exception;
both carry the state of the object after the call. -/
inductive InsertOutcome where
  | ok (st : DBState)
  | raised (e : InsertError) (st : DBState)
deriving DecidableEq

/-- `insert(text, embeddings)`: compute `id_value = sha256(text.encode())
.hexdigest()`; raise `DuplicateEntry` if the id is present; raise
`InvalidDimension` if `len(embeddings) != 768`; otherwise append the row with
`_append(..., ignore_index=True)` and then `await self._save()`.  `saveOk`
models whether the `_save` write succeeds; when it fails the exception
propagates after `self.data` has already been reassigned. -/
def insert (st : DBState) (text : String) (embeddings : List ℚ) (saveOk : Bool) :
    InsertOutcome :=
  let idValue := sha256hex text
  if hasId st.mem idValue then
    .raised (.duplicateEntry idValue) st
  else if embeddings.length ≠ 768 then
    .raised .invalidDimension st
  else
    let mem' := st.mem ++ [⟨idValue, text, embeddings⟩]
    if saveOk then .ok ⟨mem', some (writeJson mem')⟩
    else .raised .persistenceFailure ⟨mem', st.disk⟩

/-- The database object state after an `insert` call, whether it returned or
raised. -/
def InsertOutcome.state : InsertOutcome → DBState
  | .ok st => st
  | .raised _ st => st

/-- States the system can reach: a first run (`setup` with no file), a restart
(`setup` on a file this system wrote), and any `insert` call, successful or
not. -/
inductive Reachable : DBState → Prop where
  | init : Reachable (setup none)
  | reload (st : DBState) (f : JsonFile) :
      Reachable st → st.disk = some f → Reachable (setup (some f))
  | step (st : DBState) (t : String) (e : List ℚ) (s : Bool) :
      Reachable st → Reachable (insert st t e s).state

/-! ### The similarity engine

The repository's sources contain no ranking code (the spec itself records
that only the store and a UI expecting a `/search` endpoint are visible), so
the engine below is modelled from the spec's §4.2 contract. -/

/-- Dot product of two vectors, summing over the common prefix. -/
def dot : List ℚ → List ℚ → ℚ
  | x :: xs, y :: ys => x * y + dot xs ys
  | _, _ => 0

/-- Squared magnitude of a vector. -/
def normSq (v : List ℚ) : ℚ := dot v v

/-- Magnitude of a vector. -/
noncomputable def magnitude (v : List ℚ) : ℝ := Real.sqrt ((normSq v : ℚ) : ℝ)

/-- Modelled from the spec: the score is the cosine similarity, the dot
product divided by the product of the two vectors' magnitudes. -/
noncomputable def cosineSim (q e : List ℚ) : ℝ :=
  ((dot q e : ℚ) : ℝ) / (magnitude q * magnitude e)

/-- One ranked result: `(id, text, score)`. -/
structure RankedResult where
  id : String
  text : String
  score : ℝ

/-- Modelled from the spec: `rank` rejects a non-positive `k` with
`InvalidArgument`. -/
inductive RankError where
  | invalidArgument
deriving DecidableEq

/-- The sort order of the engine on index-decorated entries: strictly greater
score first, and on equal scores the smaller insertion index first.  Sorting
by this order is extensionally the stable sort by descending score that the
spec prescribes. -/
noncomputable def rankRel (q : List ℚ) (a b : ℕ × Entry) : Prop :=
  cosineSim q b.2.embeddings < cosineSim q a.2.embeddings ∨
    (cosineSim q a.2.embeddings = cosineSim q b.2.embeddings ∧ a.1 ≤ b.1)

noncomputable instance (q : List ℚ) : DecidableRel (rankRel q) :=
  fun _ _ => Classical.dec _

/-- Modelled from the spec: decorate the entries with their insertion index,
skip entries whose embedding dimension differs from the query's, and stably
sort by descending cosine similarity. -/
noncomputable def rankedEntries (q : List ℚ) (entries : Corpus) : List (ℕ × Entry) :=
  List.insertionSort (rankRel q)
    (entries.enum.filter fun p => p.2.embeddings.length == q.length)

/-- Modelled from the spec: `rank(query_embedding, entries, k)` rejects
`k ≤ 0` with `InvalidArgument` and otherwise returns the first `k` of the
stably-sorted scored entries as `(id, text, score)` triples. -/
noncomputable def rank (q : List ℚ) (entries : Corpus) (k : ℤ) :
    Except RankError (List RankedResult) :=
  if k ≤ 0 then .error .invalidArgument
  else .ok (((rankedEntries q entries).take k.toNat).map fun p =>
    ⟨p.2.id, p.2.text, cosineSim q p.2.embeddings⟩)

instance (q : List ℚ) : IsTotal (ℕ × Entry) (rankRel q) where
  total a b := by
    rcases lt_trichotomy (cosineSim q a.2.embeddings) (cosineSim q b.2.embeddings) with h | h | h
    · exact Or.inr (Or.inl h)
    · rcases Nat.le_total a.1 b.1 with hle | hle
      · exact Or.inl (Or.inr ⟨h, hle⟩)
      · exact Or.inr (Or.inr ⟨h.symm, hle⟩)
    · exact Or.inl (Or.inl h)

instance (q : List ℚ) : IsTrans (ℕ × Entry) (rankRel q) where
  trans a b c hab hbc := by
    rcases hab with h1 | ⟨h1, h1'⟩ <;> rcases hbc with h2 | ⟨h2, h2'⟩
    · exact Or.inl (h2.trans h1)
    · exact Or.inl (h2.symm.trans_lt h1)
    · exact Or.inl (h2.trans_eq h1.symm)
    · exact Or.inr ⟨h1.trans h2, h1'.trans h2'⟩

/-! ### Concrete fixtures used by witnesses and counterexamples -/

/-- A valid 768-dimensional embedding. -/
def e768 : List ℚ := List.replicate 768 0

/-- An embedding of the wrong dimension. -/
def e767 : List ℚ := List.replicate 767 0

/-- A validly inserted entry for the text "a". -/
def entryA : Entry := ⟨sha256hex "a", "a", e768⟩

/-- A store already holding the entry for "a". -/
def stA : DBState := ⟨[entryA], some (writeJson [entryA])⟩

/-- The store state right after a first-run `setup`. -/
def st0 : DBState := setup none

/-- Example query vector (unit magnitude, so cosine scores are rational). -/
def exq : List ℚ := [1, 0]

/-- Example embedding for entry A: cosine score 3/5 against `exq`. -/
def embA : List ℚ := [3/5, 4/5]

/-- Example embedding for entry B: cosine score 0 against `exq`. -/
def embB : List ℚ := [0, 1]

/-- Example embedding for entry C: cosine score 3/5 against `exq`, tying A. -/
def embC : List ℚ := [3/5, -4/5]

/-- Example entry A. -/
def entA : Entry := ⟨"A", "A", embA⟩

/-- Example entry B. -/
def entB : Entry := ⟨"B", "B", embB⟩

/-- Example entry C. -/
def entC : Entry := ⟨"C", "C", embC⟩

/-- Example three-entry corpus in insertion order A, B, C. -/
def exampleEntries : Corpus := [entA, entB, entC]

/-! ### Sanity checks and helper lemmas -/

set_option maxRecDepth 100000 in
/-- Sanity check against the standard SHA-256 test vector for "abc". -/
theorem sha256hex_abc :
    sha256hex "abc" = "ba7816bf8f01cfea414140de5dae2223b00361a396177a9cb410ff61f20015ad" := by
  decide

/-- The fixture `e768` has the valid dimension. -/
theorem e768_length : e768.length = 768 := by
  simp only [e768, List.length_replicate]

/-- The fixture `e767` has an invalid dimension. -/
theorem e767_length : e767.length = 767 := by
  simp only [e767, List.length_replicate]

/-! ### Claim C1: duplicate inserts are rejected without changing the store -/

/-- C1: for every store state and every text whose hash-derived id already
exists in the store, `insert` with that text raises `DuplicateEntry` and the
store's contents (hence its size) are exactly the same after the rejected
call as before it. -/
theorem insert_duplicate_rejected (st : DBState) (t : String) (emb : List ℚ) (s : Bool)
    (h : hasId st.mem (sha256hex t) = true) :
    insert st t emb s = .raised (.duplicateEntry (sha256hex t)) st ∧
      (insert st t emb s).state.mem = st.mem := by
  simp [insert, h, InsertOutcome.state]

/-- Witness for C1: a concrete one-entry store rejects re-inserting "a". -/
theorem insert_duplicate_rejected_witness :
    hasId stA.mem (sha256hex "a") = true ∧
      insert stA "a" e768 true = .raised (.duplicateEntry (sha256hex "a")) stA :=
  ⟨by simp [stA, entryA, hasId],
    (insert_duplicate_rejected stA "a" e768 true (by simp [stA, entryA, hasId])).1⟩

/-! ### Claim C10: the duplicate check runs before the dimension check -/

/-- C10: inserting a text whose id already exists together with an embedding
of the wrong length fails with the duplicate error, never the dimension
error. -/
theorem insert_duplicate_before_dimension (st : DBState) (t : String) (emb : List ℚ)
    (s : Bool) (hdup : hasId st.mem (sha256hex t) = true) (_hlen : emb.length ≠ 768) :
    insert st t emb s = .raised (.duplicateEntry (sha256hex t)) st ∧
      ∀ st', insert st t emb s ≠ .raised .invalidDimension st' := by
  refine ⟨by simp [insert, hdup], fun st' hcontra => ?_⟩
  simp [insert, hdup] at hcontra

/-- Witness for C10: re-inserting "a" with a 767-length embedding raises
`DuplicateEntry`. -/
theorem insert_duplicate_before_dimension_witness :
    hasId stA.mem (sha256hex "a") = true ∧ e767.length ≠ 768 ∧
      insert stA "a" e767 true = .raised (.duplicateEntry (sha256hex "a")) stA :=
  ⟨by simp [stA, entryA, hasId], by simp [e767_length],
    (insert_duplicate_before_dimension stA "a" e767 true
      (by simp [stA, entryA, hasId]) (by simp [e767_length])).1⟩

/-! ### Claim C3: append-then-save is not atomic on save failure -/

/-- C3 counterexample: when the `_save` write fails after validation, the
exception is propagated, but `self.data` has already been reassigned: the
in-memory collection is NOT left unchanged, contradicting the claim. -/
theorem insert_persist_failure_not_rolled_back :
    insert st0 "a" e768 false =
        .raised .persistenceFailure ⟨[⟨sha256hex "a", "a", e768⟩], st0.disk⟩ ∧
      (insert st0 "a" e768 false).state.mem ≠ st0.mem := by
  have h : insert st0 "a" e768 false =
      .raised .persistenceFailure ⟨[⟨sha256hex "a", "a", e768⟩], st0.disk⟩ := by
    simp [insert, st0, setup, hasId, e768_length]
  refine ⟨h, ?_⟩
  rw [h]
  simp [InsertOutcome.state, st0, setup]

/-- C3 amended: on success the new entry is appended and the full collection
is persisted before `insert` returns; but when the persistence write fails
after validation, `insert` raises (is reported as failed) with the in-memory
append already committed and the disk unchanged, so memory and disk diverge. -/
theorem insert_append_then_save (st : DBState) (t : String) (emb : List ℚ)
    (hdup : hasId st.mem (sha256hex t) = false) (hlen : emb.length = 768) :
    insert st t emb true =
        .ok ⟨st.mem ++ [⟨sha256hex t, t, emb⟩],
          some (writeJson (st.mem ++ [⟨sha256hex t, t, emb⟩]))⟩ ∧
      insert st t emb false =
        .raised .persistenceFailure ⟨st.mem ++ [⟨sha256hex t, t, emb⟩], st.disk⟩ := by
  constructor <;> simp [insert, hdup, hlen]

/-- Witness for the amended C3 at a concrete empty store. -/
theorem insert_append_then_save_witness :
    hasId st0.mem (sha256hex "b") = false ∧ e768.length = 768 ∧
      insert st0 "b" e768 true =
        .ok ⟨[⟨sha256hex "b", "b", e768⟩], some (writeJson [⟨sha256hex "b", "b", e768⟩])⟩ := by
  refine ⟨by simp [st0, setup, hasId], by exact e768_length, ?_⟩
  have h := (insert_append_then_save st0 "b" e768
    (by simp [st0, setup, hasId]) (by exact e768_length)).1
  simpa [st0, setup] using h

/-! ### Claim C8: there is no non-empty-text validation in `insert` -/

/-- C8 counterexample: inserting the empty text with a valid 768-length
embedding into a fresh store succeeds and stores the empty text, so the
claimed non-empty-text constraint does not exist and the claimed invariant
fails. -/
theorem insert_empty_text_accepted :
    insert st0 "" e768 true =
      .ok ⟨[⟨sha256hex "", "", e768⟩], some (writeJson [⟨sha256hex "", "", e768⟩])⟩ := by
  simp [insert, st0, setup, hasId, e768_length]

/-- C8 amended: `insert` validates only the id and the dimension; an empty
text whose hash-derived id is not present is appended like any other text, so
stored texts may be empty. -/
theorem insert_no_empty_text_guard (st : DBState) (emb : List ℚ)
    (hdup : hasId st.mem (sha256hex "") = false) (hlen : emb.length = 768) :
    insert st "" emb true =
      .ok ⟨st.mem ++ [⟨sha256hex "", "", emb⟩],
        some (writeJson (st.mem ++ [⟨sha256hex "", "", emb⟩]))⟩ := by
  simp [insert, hdup, hlen]

/-- Witness for the amended C8 at a concrete store. -/
theorem insert_no_empty_text_guard_witness :
    hasId st0.mem (sha256hex "") = false ∧ e768.length = 768 ∧
      insert st0 "" e768 true =
        .ok ⟨[⟨sha256hex "", "", e768⟩], some (writeJson [⟨sha256hex "", "", e768⟩])⟩ := by
  refine ⟨by simp [st0, setup, hasId], by exact e768_length, ?_⟩
  simpa [st0, setup] using
    insert_no_empty_text_guard st0 e768 (by simp [st0, setup, hasId]) (by exact e768_length)

/-! ### Claim C2: the dimension guard and the reachable-state invariant -/

/-- Reading a column file back yields entries whose embeddings come from its
`Embeddings` column. -/
theorem mem_readJson_embeds {f : JsonFile} {e : Entry} (he : e ∈ readJson f) :
    e.embeddings ∈ f.embeds := by
  simp only [readJson, List.mem_map] at he
  obtain ⟨⟨i, t, l⟩, hp, rfl⟩ := he
  exact (List.of_mem_zip (List.of_mem_zip hp).2).2

/-- Every reachable state stores only 768-dimensional embeddings, in memory
and in the cache file. -/
theorem reachable_embedding_lengths (st : DBState) (h : Reachable st) :
    (∀ e ∈ st.mem, e.embeddings.length = 768) ∧
      (∀ f, st.disk = some f → ∀ l ∈ f.embeds, l.length = 768) := by
  induction h with
  | init =>
      refine ⟨by simp [setup], fun f hf l hl => ?_⟩
      simp only [setup, Option.some.injEq] at hf
      subst hf
      simp [writeJson] at hl
  | reload st f hR hdisk ih =>
      have hf : ∀ l ∈ f.embeds, l.length = 768 := ih.2 f hdisk
      have hmem : ∀ e ∈ readJson f, e.embeddings.length = 768 := fun e he =>
        hf _ (mem_readJson_embeds he)
      refine ⟨by simpa [setup] using hmem, fun g hg l hl => ?_⟩
      simp only [setup, Option.some.injEq] at hg
      subst hg
      simp only [writeJson, List.mem_map] at hl
      obtain ⟨e, he, rfl⟩ := hl
      exact hmem e he
  | step st t e s hR ih =>
      by_cases h1 : hasId st.mem (sha256hex t)
      · simpa [insert, h1, InsertOutcome.state] using ih
      · by_cases h2 : e.length = 768
        · have hmem : ∀ x ∈ st.mem ++ [(⟨sha256hex t, t, e⟩ : Entry)],
              x.embeddings.length = 768 := by
            intro x hx
            rcases List.mem_append.mp hx with hx | hx
            · exact ih.1 x hx
            · simp only [List.mem_singleton] at hx
              subst hx
              exact h2
          cases s with
          | false =>
              have hst : (insert st t e false).state =
                  ⟨st.mem ++ [⟨sha256hex t, t, e⟩], st.disk⟩ := by
                simp [insert, h1, h2, InsertOutcome.state]
              rw [hst]
              exact ⟨hmem, ih.2⟩
          | true =>
              have hst : (insert st t e true).state =
                  ⟨st.mem ++ [⟨sha256hex t, t, e⟩],
                    some (writeJson (st.mem ++ [⟨sha256hex t, t, e⟩]))⟩ := by
                simp [insert, h1, h2, InsertOutcome.state]
              rw [hst]
              refine ⟨hmem, fun g hg l hl => ?_⟩
              simp only [Option.some.injEq] at hg
              subst hg
              simp only [writeJson, List.mem_map] at hl
              obtain ⟨x, hx, rfl⟩ := hl
              exact hmem x hx
        · simpa [insert, h1, h2, InsertOutcome.state] using ih

/-- C2 counterexample: with a store already holding the entry for "a",
inserting "a" with a 767-length embedding fails with the duplicate error, not
with `InvalidDimension`, so the claim's universal statement over every store
state and text is false. -/
theorem dimension_guard_counterexample :
    insert stA "a" e767 true = .raised (.duplicateEntry (sha256hex "a")) stA ∧
      insert stA "a" e767 true ≠ .raised .invalidDimension stA := by
  have h : insert stA "a" e767 true = .raised (.duplicateEntry (sha256hex "a")) stA := by
    simp [insert, hasId, stA, entryA]
  refine ⟨h, ?_⟩
  rw [h]
  simp

/-- C2 amended: for every store state and every text whose hash-derived id is
not already present, an embedding whose length is not 768 makes `insert` fail
with `InvalidDimension` leaving the store unchanged; and every reachable
store state holds only embeddings of length exactly 768. -/
theorem insert_dimension_guard :
    (∀ st t emb s, hasId st.mem (sha256hex t) = false → emb.length ≠ 768 →
        insert st t emb s = .raised .invalidDimension st) ∧
      ∀ st, Reachable st → ∀ e ∈ st.mem, e.embeddings.length = 768 := by
  refine ⟨fun st t emb s hdup hlen => by simp [insert, hdup, hlen],
    fun st h => (reachable_embedding_lengths st h).1⟩

/-- Witness for the amended C2 at a concrete fresh store. -/
theorem insert_dimension_guard_witness :
    hasId st0.mem (sha256hex "x") = false ∧ e767.length ≠ 768 ∧
      insert st0 "x" e767 true = .raised .invalidDimension st0 :=
  ⟨by simp [st0, setup, hasId], by simp [e767_length],
    insert_dimension_guard.1 st0 "x" e767 true (by simp [st0, setup, hasId])
      (by simp [e767_length])⟩

/-! ### Claim C4: the persistence round trip never happens -/

/-- C4: under the pinned pandas the round trip cannot even begin — `_save`'s
`to_json(self.cache_path, index=False)` call with the DataFrame default
orient `columns` fails the pandas argument validation, so saving the
concrete one-entry store (indeed any store) raises `ValueError` and nothing
is ever persisted; persist-then-reload is therefore not the identity the
spec's round-trip property requires.  The invalid `index=False` argument is
the code's slip; the spec states the intent. -/
theorem save_raises_valueerror :
    save [entryA] = .valueError ∧ ∀ db : Corpus, save db = .valueError := by
  constructor
  · rfl
  · intro db
    rfl

/-! ### Claim C9: first-run `setup` raises instead of returning -/

/-- C9: on a missing cache file (first run) the faithful `setup` model
assigns the empty collection and then propagates the `ValueError` raised by
`_save`'s `to_json(path, index=False)` call, and it raises the same way when
the file exists; `setup` therefore does not return successfully on a first
run, contradicting the claim — the spec's missing-file tolerance is the
clear intent and the unguarded, always-failing `_save` call is the code's
slip. -/
theorem setup_first_run_raises :
    setupP none = .raisedValueError [] ∧
      ∀ f, setupP (some f) = .raisedValueError (readJson f) := by
  constructor
  · rfl
  · intro f
    rfl

/-! ### Claim C5: the id is the fixed-length hex hash of the text alone -/

/-- A compression round always yields an eight-word state. -/
theorem round_length (st : List Nat) (kw : Nat × Nat) : (round st kw).length = 8 := rfl

/-- Folding compression rounds preserves the eight-word state shape. -/
theorem foldl_round_length (l : List (Nat × Nat)) (h : List Nat) (hh : h.length = 8) :
    (l.foldl round h).length = 8 := by
  induction l generalizing h with
  | nil => simpa using hh
  | cons kw l ih => simpa using ih (round h kw) (round_length h kw)

/-- Block compression preserves the eight-word hash shape. -/
theorem compressBlock_length (h b : List Nat) (hh : h.length = 8) :
    (compressBlock h b).length = 8 := by
  simp [compressBlock, foldl_round_length _ _ hh, hh]

/-- The digest always consists of eight 32-bit words. -/
theorem sha256Words_length (m : List Nat) : (sha256Words m).length = 8 := by
  have hfold : ∀ (bs : List (List Nat)) (h : List Nat), h.length = 8 →
      (bs.foldl compressBlock h).length = 8 := by
    intro bs
    induction bs with
    | nil => intro h hh; simpa using hh
    | cons b bs ih => intro h hh; exact ih _ (compressBlock_length h b hh)
  exact hfold _ H0 rfl

/-- A word renders as exactly eight hex characters. -/
theorem toHex8_length (x : Nat) : (toHex8 x).length = 8 := rfl

/-- Rendering a word list in hex gives eight characters per word. -/
theorem flatMap_toHex8_length (ws : List Nat) : (ws.flatMap toHex8).length = 8 * ws.length := by
  induction ws with
  | nil => simp
  | cons w ws ih => simp [ih, toHex8_length]; omega

/-- The hex digest of any text has exactly 64 characters. -/
theorem sha256hex_length (s : String) : (sha256hex s).length = 64 := by
  show ((sha256Words (utf8Bytes s)).flatMap toHex8).length = 64
  rw [flatMap_toHex8_length, sha256Words_length]

/-- A digit extracted mod 16 renders as a lowercase hex character. -/
theorem hexDigit_mem (m : Nat) : hexDigit (m % 16) ∈ ("0123456789abcdef").data := by
  have hlt : m % 16 < 16 := Nat.mod_lt _ (by norm_num)
  have hall : ∀ n, n < 16 → hexDigit n ∈ ("0123456789abcdef").data := by decide
  exact hall _ hlt

/-- Every character of the digest is a lowercase hex digit. -/
theorem sha256hex_chars (s : String) :
    ∀ c ∈ (sha256hex s).data, c ∈ ("0123456789abcdef").data := by
  intro c hc
  simp only [sha256hex] at hc
  rw [List.mem_flatMap] at hc
  obtain ⟨w, _, hcw⟩ := hc
  simp only [toHex8, List.mem_cons, List.not_mem_nil, or_false] at hcw
  rcases hcw with h | h | h | h | h | h | h | h <;> subst h <;> exact hexDigit_mem _

/-- C5: a successfully inserted entry's id is `sha256hex` of its text — a
fixed function of the text alone (so the same text always yields the same id
and the embedding plays no role), whose value is a fixed-length (64) hex
digest — and this id is the sole uniqueness key: a `DuplicateEntry` rejection
happens exactly when the id is already present. -/
theorem insert_id_contract :
    (∀ st t emb s st', insert st t emb s = .ok st' →
        st'.mem = st.mem ++ [⟨sha256hex t, t, emb⟩]) ∧
      (∀ t, (sha256hex t).length = 64) ∧
      (∀ t, ∀ c ∈ (sha256hex t).data, c ∈ ("0123456789abcdef").data) ∧
      (∀ st t emb s,
        (∃ st', insert st t emb s = .raised (.duplicateEntry (sha256hex t)) st') ↔
          hasId st.mem (sha256hex t) = true) := by
  refine ⟨?_, sha256hex_length, sha256hex_chars, ?_⟩
  · intro st t emb s st' h
    by_cases h1 : hasId st.mem (sha256hex t)
    · simp [insert, h1] at h
    · by_cases h2 : emb.length = 768
      · cases s with
        | false => simp [insert, h1, h2] at h
        | true =>
            simp only [insert, h1, h2] at h
            simp only [Bool.false_eq_true, if_false, ne_eq, not_true_eq_false,
              if_true, reduceIte, InsertOutcome.ok.injEq] at h
            rw [← h]
      · simp [insert, h1, h2] at h
  · intro st t emb s
    constructor
    · rintro ⟨st', h⟩
      by_contra hfalse
      rw [Bool.not_eq_true] at hfalse
      by_cases h2 : emb.length = 768
      · cases s with
        | false => simp [insert, hfalse, h2] at h
        | true => simp [insert, hfalse, h2] at h
      · simp [insert, hfalse, h2] at h
    · intro h
      exact ⟨st, by simp [insert, h]⟩

/-- Witness for C5: the concrete store `stA` rejects its own text by id, and
the digest of "a" has 64 characters. -/
theorem insert_id_contract_witness :
    (sha256hex "a").length = 64 ∧ hasId stA.mem (sha256hex "a") = true ∧
      ∃ st', insert stA "a" e768 false = .raised (.duplicateEntry (sha256hex "a")) st' :=
  ⟨insert_id_contract.2.1 "a", by simp [stA, entryA, hasId],
    (insert_id_contract.2.2.2 stA "a" e768 false).mpr (by simp [stA, entryA, hasId])⟩

/-! ### Claims C6 and C7: the ranking contract -/

/-- The query and all three example embeddings have unit magnitude. -/
theorem cos_exq_embA : cosineSim exq embA = 3 / 5 := by
  have h1 : dot exq exq = 1 := by norm_num [dot, exq]
  have h2 : dot embA embA = 1 := by norm_num [dot, embA]
  have h3 : dot exq embA = 3 / 5 := by norm_num [dot, exq, embA]
  rw [cosineSim, magnitude, magnitude, normSq, normSq, h1, h2, h3]
  rw [Rat.cast_one, Real.sqrt_one]
  norm_num

/-- Entry B scores 0 against the example query. -/
theorem cos_exq_embB : cosineSim exq embB = 0 := by
  have h1 : dot exq exq = 1 := by norm_num [dot, exq]
  have h2 : dot embB embB = 1 := by norm_num [dot, embB]
  have h3 : dot exq embB = 0 := by norm_num [dot, exq, embB]
  rw [cosineSim, magnitude, magnitude, normSq, normSq, h1, h2, h3]
  rw [Rat.cast_one, Real.sqrt_one]
  norm_num

/-- Entry C ties entry A against the example query. -/
theorem cos_exq_embC : cosineSim exq embC = 3 / 5 := by
  have h1 : dot exq exq = 1 := by norm_num [dot, exq]
  have h2 : dot embC embC = 1 := by norm_num [dot, embC]
  have h3 : dot exq embC = 3 / 5 := by norm_num [dot, exq, embC]
  rw [cosineSim, magnitude, magnitude, normSq, normSq, h1, h2, h3]
  rw [Rat.cast_one, Real.sqrt_one]
  norm_num

/-- The engine's stable sort on the example corpus: A first (index 0), then
the tying C (index 2), then the lower-scoring B. -/
theorem rankedEntries_example :
    rankedEntries exq exampleEntries = [(0, entA), (2, entC), (1, entB)] := by
  have hA := cos_exq_embA
  have hB := cos_exq_embB
  have hC := cos_exq_embC
  have hfil : (exampleEntries.enum.filter fun p => p.2.embeddings.length == exq.length) =
      [(0, entA), (1, entB), (2, entC)] := rfl
  rw [rankedEntries, hfil]
  simp only [List.insertionSort]
  rw [List.orderedInsert_nil]
  have e1 : List.orderedInsert (rankRel exq) (1, entB) [(2, entC)] = [(2, entC), (1, entB)] := by
    rw [List.orderedInsert, if_neg, List.orderedInsert_nil]
    simp only [rankRel, entB, entC]
    rw [hB, hC]
    norm_num
  have e2 : List.orderedInsert (rankRel exq) (0, entA) [(2, entC), (1, entB)] =
      [(0, entA), (2, entC), (1, entB)] := by
    rw [List.orderedInsert, if_pos]
    refine Or.inr ⟨?_, by norm_num⟩
    show cosineSim exq entA.embeddings = cosineSim exq entC.embeddings
    rw [show entA.embeddings = embA from rfl, show entC.embeddings = embC from rfl, hA, hC]
  rw [e1, e2]

/-- C6: for every query, entry list and `k > 0`, `rank` succeeds and returns
the first `k` of the entries sorted by descending cosine score with ties in
insertion order (a deterministic stable sort); in particular on the example
corpus A, B, C with scores 3/5, 0, 3/5 it returns [A, C] — never [C, A] and
never including B. -/
theorem rank_sorted_stable :
    (∀ (q : List ℚ) (entries : Corpus) (k : ℤ), 0 < k →
      rank q entries k = .ok (((rankedEntries q entries).take k.toNat).map fun p =>
          ⟨p.2.id, p.2.text, cosineSim q p.2.embeddings⟩) ∧
        (rankedEntries q entries).Pairwise (fun a b =>
          cosineSim q b.2.embeddings ≤ cosineSim q a.2.embeddings ∧
            (cosineSim q a.2.embeddings = cosineSim q b.2.embeddings → a.1 ≤ b.1)) ∧
        (((rankedEntries q entries).take k.toNat).map fun p =>
            (⟨p.2.id, p.2.text, cosineSim q p.2.embeddings⟩ : RankedResult)).Pairwise
          fun a b => b.score ≤ a.score) ∧
      rank exq exampleEntries 2 =
          .ok [⟨"A", "A", cosineSim exq embA⟩, ⟨"C", "C", cosineSim exq embC⟩] ∧
        cosineSim exq embA = cosineSim exq embC ∧ cosineSim exq embB < cosineSim exq embA := by
  have hkey : ∀ (q : List ℚ) (a b : ℕ × Entry), rankRel q a b →
      cosineSim q b.2.embeddings ≤ cosineSim q a.2.embeddings ∧
        (cosineSim q a.2.embeddings = cosineSim q b.2.embeddings → a.1 ≤ b.1) := by
    intro q a b h
    rcases h with h | ⟨heq, hle⟩
    · exact ⟨h.le, fun hEq => absurd (hEq ▸ h) (lt_irrefl _)⟩
    · exact ⟨heq.ge, fun _ => hle⟩
  refine ⟨fun q entries k hk => ?_, ?_, ?_, ?_⟩
  · have hsorted : (rankedEntries q entries).Sorted (rankRel q) :=
      List.sorted_insertionSort (rankRel q) _
    have hpair : (rankedEntries q entries).Pairwise fun a b =>
        cosineSim q b.2.embeddings ≤ cosineSim q a.2.embeddings ∧
          (cosineSim q a.2.embeddings = cosineSim q b.2.embeddings → a.1 ≤ b.1) :=
      hsorted.imp fun h => hkey q _ _ h
    have htake := hpair.sublist (List.take_sublist k.toNat _)
    exact ⟨by simp only [rank, if_neg (not_le.mpr hk)], hpair,
      htake.map _ fun a b hab => hab.1⟩
  · simp only [rank, if_neg (show ¬(2 : ℤ) ≤ 0 by norm_num)]
    rw [rankedEntries_example]
    simp [entA, entC]
  · rw [cos_exq_embA, cos_exq_embC]
  · rw [cos_exq_embA, cos_exq_embB]
    norm_num

/-- Witness for C6: the concrete [A, C] result and the tie facts, and the
pairwise order of the concrete sorted list, via the theorem. -/
theorem rank_sorted_stable_witness :
    (0 : ℤ) < 2 ∧
      rank exq exampleEntries 2 =
        .ok [⟨"A", "A", cosineSim exq embA⟩, ⟨"C", "C", cosineSim exq embC⟩] ∧
      (rankedEntries exq exampleEntries).Pairwise fun a b =>
        cosineSim exq b.2.embeddings ≤ cosineSim exq a.2.embeddings ∧
          (cosineSim exq a.2.embeddings = cosineSim exq b.2.embeddings → a.1 ≤ b.1) :=
  ⟨by norm_num, rank_sorted_stable.2.1,
    (rank_sorted_stable.1 exq exampleEntries 2 (by norm_num)).2.1⟩

/-- When every stored embedding matches the query's dimension, the filter of
the decorated entries keeps everything. -/
theorem filter_dim_eq (q : List ℚ) (l : Corpus)
    (hall : ∀ e ∈ l, e.embeddings.length = q.length) : ∀ n,
    ((List.enumFrom n l).filter fun p => p.2.embeddings.length == q.length) =
      List.enumFrom n l := by
  induction l with
  | nil => intro n; rfl
  | cons e l ih =>
      intro n
      have he : (e.embeddings.length == q.length) = true :=
        beq_iff_eq.mpr (hall e (List.mem_cons_self e l))
      simp only [List.enumFrom, List.filter_cons, he, if_true]
      rw [ih fun x hx => hall x (List.mem_cons_of_mem e hx)]

/-- C7: for every query, entry list and `k > 0`, `rank` succeeds with at most
`k` results, and when the store's entries all have the query's dimension the
result holds `min k n` entries — in particular all of them, without error,
when the store has fewer than `k`. -/
theorem rank_k_clamp (q : List ℚ) (entries : Corpus) (k : ℤ) (hk : 0 < k) :
    ∃ res, rank q entries k = .ok res ∧ res.length ≤ k.toNat ∧
      ((∀ e ∈ entries, e.embeddings.length = q.length) →
        res.length = min k.toNat entries.length) := by
  refine ⟨((rankedEntries q entries).take k.toNat).map fun p =>
      ⟨p.2.id, p.2.text, cosineSim q p.2.embeddings⟩,
    by simp only [rank, if_neg (not_le.mpr hk)], ?_, fun hall => ?_⟩
  · simp only [List.length_map, List.length_take]
    exact min_le_left _ _
  · have hlen : (rankedEntries q entries).length = entries.length := by
      rw [rankedEntries, List.length_insertionSort]
      show ((List.enumFrom 0 entries).filter _).length = _
      rw [filter_dim_eq q entries hall 0]
      exact List.enumFrom_length
    simp only [List.length_map, List.length_take, hlen]

/-- Witness for C7: `rank` with `k = 100` on the 3-entry example store
returns exactly 3 results. -/
theorem rank_k_clamp_witness :
    (0 : ℤ) < 100 ∧ ∃ res, rank exq exampleEntries 100 = .ok res ∧ res.length = 3 := by
  refine ⟨by norm_num, ?_⟩
  obtain ⟨res, h1, _, h3⟩ := rank_k_clamp exq exampleEntries 100 (by norm_num)
  have hall : ∀ e ∈ exampleEntries, e.embeddings.length = exq.length := by
    intro e he
    simp only [exampleEntries, List.mem_cons, List.not_mem_nil, or_false] at he
    rcases he with rfl | rfl | rfl <;> rfl
  exact ⟨res, h1, by simpa [exampleEntries] using h3 hall⟩

end VectorSearchEngine
